import Mathlib

/-!
Verification of the travetto test-execution engine.

The definitions below are a shallow embedding of the TypeScript sources:
`src/runner/execute/execute.ts` (single-test executor `ExecuteUtil.executeTest`
and `ExecuteUtil.checkError`), `src/runner/execute.ts` (suite executor
`ExecuteUtil.executeSuite`, lifecycle hook runner `ExecuteUtil.affixProcess`,
`ExecuteUtil.generateSuiteError`) and `src/service/executor.ts`
(`Executor.merge`, `Executor.exec`, `Executor.executors`).

External effects are modelled as explicit inputs: the outcome of invoking a
test method (normal return / thrown value / lost timeout race) is an
`Invocation`, the outcome of running one lifecycle phase's listener list is a
`PhaseOutcome`, stack-position extraction (`AssertUtil.readFilePosition`,
whose source is not part of the repository snapshot) is an oracle parameter,
and regular-expression / instanceof / predicate checks inside `shouldThrow`
are carried as abstract boolean functions on the thrown value.
-/

namespace Travetto

/-- Test outcome status, the `status` field of a `TestResult`. -/
inductive Status
  | success
  | fail
  | skip
deriving DecidableEq, Repr

/-- Source line range; `stop` models the `end` property of `lines`. -/
structure Lines where
  start : Nat
  stop : Nat
deriving DecidableEq, Repr

/-- A JavaScript `Error` value: message, constructor name, and whether it is
an `assert.AssertionError` instance. -/
structure ErrorV where
  message : String
  name : String
  isAssertionError : Bool
deriving DecidableEq, Repr

/-- `new Error(msg)`. -/
def mkError (msg : String) : ErrorV :=
  { message := msg, name := "Error", isAssertionError := false }

/-- A value thrown by user code: either an `Error` object or a plain string
(the executor's catch parameter is typed `Error | string | undefined`). -/
inductive ThrownVal
  | err (e : ErrorV)
  | str (s : String)
deriving DecidableEq, Repr

/-- JavaScript truthiness of a caught value: `undefined` and the empty string
are falsy, every `Error` object is truthy. -/
def tvTruthy : Option ThrownVal → Bool
  | none => false
  | some (.str s) => s ≠ ""
  | some (.err _) => true

/-- `typeof err === 'string' ? err : err.message`. -/
def tvMessage : Option ThrownVal → String
  | some (.str s) => s
  | some (.err e) => e.message
  | none => ""

/-- `err.message` as JavaScript evaluates it: `undefined` for a thrown
string. -/
def tvMessageOpt : ThrownVal → Option String
  | .str _ => none
  | .err e => some e.message

/-- `err instanceof assert.AssertionError`. -/
def tvIsAE : ThrownVal → Bool
  | .str _ => false
  | .err e => e.isAssertionError

/-- Single-quote character, used by the executor's diagnostic messages. -/
def sq : String := String.singleton '\''

/-- The interpolation
`err instanceof Error ? `'${err.message}'` : (err ? `'${err}'` : 'nothing')`
from `checkError`. -/
def tvActual : Option ThrownVal → String
  | some (.err e) => sq ++ e.message ++ sq
  | some (.str s) => if s ≠ "" then sq ++ s ++ sq else "nothing"
  | none => "nothing"

/-- `err instanceof st` on a caught value (`false` for `undefined`). -/
def tvInst (isInst : ThrownVal → Bool) : Option ThrownVal → Bool
  | some tv => isInst tv
  | none => false

/-- `${err || 'nothing'}` string interpolation of a caught value. -/
def tvToStr : Option ThrownVal → String
  | some (.err e) => e.name ++ ": " ++ e.message
  | some (.str s) => if s ≠ "" then s else "nothing"
  | none => "nothing"

/-- Whether `pre` is a leading segment of `l`. -/
def charsStart : List Char → List Char → Bool
  | _, [] => true
  | [], _ :: _ => false
  | a :: as, b :: bs => a = b && charsStart as bs

/-- Whether `needle` occurs as a contiguous segment of `l`. -/
def charsContain (needle : List Char) : List Char → Bool
  | [] => needle.isEmpty
  | a :: as => charsStart (a :: as) needle || charsContain needle as

/-- JavaScript `String.prototype.includes`. -/
def jsIncludes (hay needle : String) : Bool :=
  charsContain needle.toList hay.toList

/-- One recorded assertion (`Assertion` model type). The suite-level
synthetic assertion built by `generateSuiteError` carries no class/method
identity, hence those fields are optional. -/
structure Assertion where
  className : Option String
  methodName : Option String
  file : String
  line : Nat
  operator : String
  text : String
  message : Option String
  error : Option ThrownVal
deriving DecidableEq, Repr

/-- `TestResult` model type. `output` is the console capture keyed by stream
name. -/
structure TestResult where
  status : Status
  className : String
  methodName : String
  description : String
  lines : Lines
  file : String
  error : Option ThrownVal
  assertions : List Assertion
  output : List (String × String)
deriving DecidableEq, Repr

/-- The polymorphic `shouldThrow` expectation of a test, as a closed variant
matching the `typeof`/`instanceof` dispatch of `checkError`:
boolean, substring, regular expression (source text plus its abstract
matcher), error class (name plus its abstract `instanceof` test), or
predicate. -/
inductive ShouldThrow
  | bool (b : Bool)
  | substring (s : String)
  | pattern (source : String) (rtest : String → Bool)
  | errClass (name : String) (isInst : ThrownVal → Bool)
  | predicate (f : Option ThrownVal → Option ThrownVal)

/-- JavaScript truthiness of the `shouldThrow` field, which guards the call
to `checkError` inside `executeTest`: `false` and the empty string are
falsy; objects and functions are truthy. -/
def shouldThrowTruthy : Option ShouldThrow → Bool
  | none => false
  | some (.bool b) => b
  | some (.substring s) => s ≠ ""
  | some (.pattern _ _) => true
  | some (.errClass _ _) => true
  | some (.predicate _) => true

/-- Result of `ExecuteUtil.checkError`: the boolean branches `throw`, all
other branches `return` (an `Error`, the predicate's verdict, or
`undefined`). -/
inductive CheckResult
  | thrown (e : ErrorV)
  | ret (e : Option ThrownVal)
deriving Inhabited

/-- `ExecuteUtil.checkError` from `src/runner/execute/execute.ts`. -/
def checkError (st : ShouldThrow) (err : Option ThrownVal) : CheckResult :=
  match st with
  | .bool b =>
    if tvTruthy err ∧ ¬b then
      .thrown (mkError "Expected an error to not be thrown")
    else if ¬tvTruthy err ∧ b then
      .thrown (mkError "Expected an error to be thrown")
    else
      .ret none
  | .substring s =>
    if ¬tvTruthy err ∨ ¬jsIncludes (tvMessage err) s then
      .ret (some (.err (mkError
        ("Expected error containing text " ++ sq ++ s ++ sq ++ ", but got " ++ tvActual err))))
    else
      .ret none
  | .pattern source rtest =>
    if ¬tvTruthy err ∨ ¬rtest (tvMessage err) then
      .ret (some (.err (mkError
        ("Expected error with message matching " ++ sq ++ source ++ sq ++ ", but got " ++ tvActual err))))
    else
      .ret none
  | .errClass name isInst =>
    if ¬tvTruthy err ∨ ¬tvInst isInst err then
      .ret (some (.err (mkError ("Expected to throw " ++ name ++ ", but got " ++ tvToStr err))))
    else
      .ret none
  | .predicate f => .ret (f err)

/-- `TestConfig` model type. The suite instance and method body are outside
the embedding; what the method invocation does is supplied per run as an
`Invocation`. -/
structure TestConfig where
  className : String
  methodName : String
  description : String
  lines : Lines
  file : String
  skip : Bool
  shouldThrow : Option ShouldThrow

/-- How the race `Promise.race([suite.instance[test.methodName](), timeout])`
settled: normal return, a thrown value, or the timeout winning. -/
inductive Outcome
  | ok
  | threw (tv : ThrownVal)
  | timedOut
deriving Inhabited

/-- Everything the outside world contributes to one test-method invocation:
the race outcome, the assertions the body recorded in the capture scope, and
the captured console output. -/
structure Invocation where
  outcome : Outcome
  recorded : List Assertion
  output : List (String × String)

/-- `SuiteConfig` model type (hook listener bodies are external; their
effect per phase run is supplied as a `PhaseOutcome`). -/
structure SuiteConfig where
  className : String
  file : String
  lines : Lines
  tests : List TestConfig

/-- `SuiteResult` model type. -/
structure SuiteResult where
  success : Nat
  fail : Nat
  skip : Nat
  total : Nat
  lines : Lines
  file : String
  className : String
  tests : List TestResult
deriving DecidableEq, Repr

/-- One consumer event (`consumer.onEvent` call), in emission order. -/
inductive Event
  | suiteBefore (s : SuiteConfig)
  | suiteAfter (r : SuiteResult)
  | testBefore (t : TestConfig)
  | testAfter (r : TestResult)
  | assertion (a : Assertion)

/-- How `executeTest` finished: returned a `TestResult`, or itself threw
(which happens when a boolean `shouldThrow` expectation is violated, since
those `checkError` branches `throw`). -/
inductive ExecResult
  | done (r : TestResult)
  | threw (e : ErrorV)
deriving DecidableEq, Repr

/-- The blank `TestResult` `executeTest` starts from (`status` initially
`skip`, error unset, captures not yet attached). -/
def initResult (test : TestConfig) : TestResult :=
  { status := .skip, className := test.className, methodName := test.methodName,
    description := test.description, lines := test.lines, file := test.file,
    error := none, assertions := [], output := [] }

/-- The tail of `executeTest` after the catch block has settled on a
`CheckResult`: `if (!err)` succeed, else fail, attaching the synthetic
`(uncaught)` assertion when the error is not an `AssertionError`; a
`thrown` verdict (boolean `checkError` branch) escapes `executeTest`
itself. -/
def finishTest (readLine : ThrownVal → Nat) (test : TestConfig) (inv : Invocation)
    (step : CheckResult) : ExecResult × List Event :=
  let result0 := initResult test
  let liveEvents := inv.recorded.map Event.assertion
  match step with
  | .thrown e => (.threw e, .testBefore test :: liveEvents)
  | .ret errF =>
    if htv : tvTruthy errF then
      match errF, htv with
      | some tv, _ =>
        let extra : List Assertion :=
          if tvIsAE tv then []
          else
            let line0 := readLine tv
            let line := if line0 = 1 then test.lines.start else line0
            [{ className := some test.className, methodName := some test.methodName,
               file := test.file, line := line, operator := "throws",
               text := "(uncaught)", message := tvMessageOpt tv, error := some tv }]
        let r : TestResult :=
          { result0 with status := .fail, error := some tv,
                         assertions := inv.recorded ++ extra, output := inv.output }
        (.done r, .testBefore test :: (liveEvents ++ extra.map Event.assertion ++ [.testAfter r]))
    else
      let r : TestResult :=
        { result0 with status := .success, assertions := inv.recorded, output := inv.output }
      (.done r, .testBefore test :: (liveEvents ++ [.testAfter r]))

/-- `ExecuteUtil.executeTest` from `src/runner/execute/execute.ts`.
`readLine` is the oracle for `AssertUtil.readFilePosition(err, test.file).line`. -/
def executeTest (readLine : ThrownVal → Nat) (test : TestConfig) (inv : Invocation) :
    ExecResult × List Event :=
  if test.skip then
    (.done (initResult test), [.testBefore test])
  else
    let caught : Option ThrownVal :=
      match inv.outcome with
      | .threw tv => some tv
      | _ => none
    let step : CheckResult :=
      match inv.outcome with
      | .timedOut => .ret (some (.err (mkError "Operation timed out")))
      | _ =>
        if shouldThrowTruthy test.shouldThrow then
          checkError (test.shouldThrow.getD (.bool false)) caught
        else
          .ret caught
    finishTest readLine test inv step

/-- The status a finished `executeTest` reported, if it returned at all. -/
def statusOf : ExecResult → Option Status
  | .done r => some r.status
  | .threw _ => none

/-- The returned result of a finished `executeTest`, if any. -/
def ExecResult.done? : ExecResult → Option TestResult
  | .done r => some r
  | .threw _ => none

/-- Whether `executeTest` returned (as opposed to throwing). -/
def isDone : ExecResult → Bool
  | .done _ => true
  | .threw _ => false

/-- Outcome of running one lifecycle phase's listener list inside
`affixProcess`: all listeners returned, some listener threw, or some
listener lost the timeout race. -/
inductive PhaseOutcome
  | ok
  | errored (e : ErrorV)
  | timedOut
deriving DecidableEq

/-- `ExecuteUtil.generateSuiteError` from `src/runner/execute.ts`.
`readPos` is the oracle for `AssertUtil.readFilePosition(error, suite.file)`,
returning the derived line and file. -/
def generateSuiteError (readPos : ErrorV → Nat × String) (suite : SuiteConfig)
    (description : String) (error : ErrorV) : TestResult × List Event :=
  let line := (readPos error).1
  let file := (readPos error).2
  let badAssert : Assertion :=
    { className := none, methodName := none, file := file, line := line,
      operator := "throws", text := "(outer)", message := some error.message,
      error := some (.err error) }
  let badTest : TestResult :=
    { status := .fail, className := suite.className, methodName := description,
      description := description, lines := { start := line, stop := line }, file := file,
      error := some (.err error), assertions := [badAssert], output := [] }
  let badTestConfig : TestConfig :=
    { className := badTest.className, methodName := badTest.methodName,
      description := badTest.description, lines := badTest.lines, file := badTest.file,
      skip := false, shouldThrow := none }
  (badTest, [.testBefore badTestConfig, .assertion badAssert, .testAfter badTest])

/-- The error `affixProcess` catches for a given phase outcome (`TIMEOUT` is
replaced by `new Error(className + ': ' + phase + ' timed out')`), or `none`
when every listener completed. -/
def affixError (suite : SuiteConfig) (phase : String) : PhaseOutcome → Option ErrorV
  | .ok => none
  | .errored e => some e
  | .timedOut => some (mkError (suite.className ++ ": " ++ phase ++ " timed out"))

/-- `ExecuteUtil.affixProcess` from `src/runner/execute.ts`: on a listener
failure it generates the suite-level synthetic `TestResult` (to be pushed
onto `result.tests`) and throws `BREAKOUT`; `none` means the phase ran
clean. -/
def affixProcess (readPos : ErrorV → Nat × String) (suite : SuiteConfig) (phase : String)
    (out : PhaseOutcome) : Option (TestResult × List Event) :=
  match affixError suite phase out with
  | none => none
  | some e => some (generateSuiteError readPos suite phase e)

/-- Environment for one iteration of the suite loop: the `beforeEach` phase
outcome, the test invocation, and the `afterEach` phase outcome. -/
structure StepEnv where
  before : PhaseOutcome
  inv : Invocation
  after : PhaseOutcome

/-- Environment for one whole suite run. -/
structure SuiteEnv where
  beforeAll : PhaseOutcome
  step : Nat → StepEnv
  afterAll : PhaseOutcome

/-- Mutable state of `executeSuite`'s `result` during the loop, plus the
event trace. -/
structure LoopState where
  success : Nat
  fail : Nat
  skip : Nat
  tests : List TestResult
  events : List Event

/-- `result[ret.status]++`. -/
def bump (st : LoopState) : Status → LoopState
  | .success => { st with success := st.success + 1 }
  | .fail => { st with fail := st.fail + 1 }
  | .skip => { st with skip := st.skip + 1 }

/-- How the suite loop stopped early: `BREAKOUT` thrown by `affixProcess`
(the suite error is already recorded), or a non-`BREAKOUT` error escaping
`executeTest`. -/
inductive LoopExit
  | breakout
  | escaped (e : ErrorV)

/-- The `for (const testConfig of suite.tests)` loop of
`ExecuteUtil.executeSuite`. -/
def runTests (readLine : ThrownVal → Nat) (readPos : ErrorV → Nat × String)
    (suite : SuiteConfig) (env : SuiteEnv) :
    List TestConfig → Nat → LoopState → LoopState × Option LoopExit
  | [], _, st => (st, none)
  | t :: rest, i, st =>
    match affixProcess readPos suite "beforeEach" (env.step i).before with
    | some (bad, evs) =>
      ({ st with tests := st.tests ++ [bad], events := st.events ++ evs }, some .breakout)
    | none =>
      match executeTest readLine t (env.step i).inv with
      | (.threw e, evs) => ({ st with events := st.events ++ evs }, some (.escaped e))
      | (.done r, evs) =>
        let st' := { bump st r.status with tests := st.tests ++ [r], events := st.events ++ evs }
        match affixProcess readPos suite "afterEach" (env.step i).after with
        | some (bad, evs') =>
          ({ st' with tests := st'.tests ++ [bad], events := st'.events ++ evs' }, some .breakout)
        | none => runTests readLine readPos suite env rest (i + 1) st'

/-- The `try`/`catch` body of `ExecuteUtil.executeSuite`: `beforeAll`, the
test loop, `afterAll`, with `BREAKOUT` swallowed and any other escaping
error converted by `generateSuiteError(consumer, suite, 'all', e)`. -/
def suiteBody (readLine : ThrownVal → Nat) (readPos : ErrorV → Nat × String)
    (suite : SuiteConfig) (env : SuiteEnv) : LoopState :=
  let st0 : LoopState :=
    { success := 0, fail := 0, skip := 0, tests := [], events := [.suiteBefore suite] }
  match affixProcess readPos suite "beforeAll" env.beforeAll with
  | some (bad, evs) =>
    { st0 with tests := st0.tests ++ [bad], events := st0.events ++ evs }
  | none =>
    match runTests readLine readPos suite env suite.tests 0 st0 with
    | (st, some .breakout) => st
    | (st, some (.escaped e)) =>
      let ge := generateSuiteError readPos suite "all" e
      { st with tests := st.tests ++ [ge.1], events := st.events ++ ge.2 }
    | (st, none) =>
      match affixProcess readPos suite "afterAll" env.afterAll with
      | some (bad, evs) =>
        { st with tests := st.tests ++ [bad], events := st.events ++ evs }
      | none => st

/-- `ExecuteUtil.executeSuite` from `src/runner/execute.ts` (the newer
`src/runner/execute/execute.ts` variant has the same body with
`affixProcess` behind the phase manager). Returns the `SuiteResult` and the
emitted event trace. The suite-level `after` event is emitted before
`result.total` is assigned, so its snapshot still carries `total = 0`. -/
def executeSuite (readLine : ThrownVal → Nat) (readPos : ErrorV → Nat × String)
    (suite : SuiteConfig) (env : SuiteEnv) : SuiteResult × List Event :=
  let st1 : LoopState := suiteBody readLine readPos suite env
  let snapshot : SuiteResult :=
    { success := st1.success, fail := st1.fail, skip := st1.skip, total := 0,
      lines := suite.lines, file := suite.file, className := suite.className,
      tests := st1.tests }
  ({ snapshot with total := st1.success + st1.fail }, st1.events ++ [.suiteAfter snapshot])

/-- The per-test results the loop accumulates when every step up to the end
of the given list is clean: each entry is the isolated `executeTest` result. -/
def doneResults (readLine : ThrownVal → Nat) (env : SuiteEnv) :
    List TestConfig → Nat → List TestResult
  | [], _ => []
  | t :: rest, i =>
    match (executeTest readLine t (env.step i).inv).1 with
    | .done r => r :: doneResults readLine env rest (i + 1)
    | .threw _ => []

/-- The suite-level `after` events in a trace, with the `SuiteResult`
snapshot each one carried at emission time. -/
def suiteAfters (evs : List Event) : List SuiteResult :=
  evs.filterMap fun e => match e with | .suiteAfter r => some r | _ => none

/-! Orchestrator (`src/service/executor.ts`). -/

/-- `SuitesResult` model type: the cross-file aggregate. -/
structure SuitesResult where
  passed : Nat
  failed : Nat
  skipped : Nat
  total : Nat
  suites : List SuiteResult
deriving DecidableEq, Repr

/-- `BASE_COUNT` with an empty suite list: the aggregate a run starts from. -/
def emptySuites : SuitesResult :=
  { passed := 0, failed := 0, skipped := 0, total := 0, suites := [] }

/-- `Executor.merge` on two `SuitesResult` values (the `'suites' in src`
branch): concatenate suite lists, sum the four counters field-wise. -/
def merge (dest src : SuitesResult) : SuitesResult :=
  { suites := dest.suites ++ src.suites,
    failed := dest.failed + src.failed,
    passed := dest.passed + src.passed,
    skipped := dest.skipped + src.skipped,
    total := dest.total + src.total }

/-- `Executor.executors = os.cpus().length - 1`: the worker concurrency
bound as a function of the available CPU count. No lower bound is applied. -/
def executorsBound (cpuCount : Nat) : Int :=
  (cpuCount : Int) - 1

/-- The exit code of `Executor.exec`'s single-file in-process path: the
source runs `process.exit(0)` unconditionally after sending the results
over IPC, whatever the aggregate contains. -/
def singleFileExit (_single : SuitesResult) : Nat := 0

/-- The exit-code rule as the spec words it (for comparison with
`singleFileExit`): 0 iff the aggregate `failed` count is 0, else 1. -/
def specExitCode (r : SuitesResult) : Nat :=
  if r.failed = 0 then 0 else 1

/-- State of the bounded dispatch loop in `Executor.exec`: the next file
index to hand out, the pending map (dispatch index paired with the
`SuitesResult` its child will deliver), and the running aggregate. -/
structure DState where
  position : Nat
  pending : List (Nat × SuitesResult)
  results : SuitesResult
deriving Repr

/-- Initial dispatch state. -/
def dInit : DState :=
  { position := 0, pending := [], results := emptySuites }

/-- One step of the multi-file dispatch loop of `Executor.exec`, over a
fixed list of per-file isolated results and a concurrency bound.
`dispatch`: a slot is free and files remain, so the next file is handed to a
fresh child. `race`: no slot is free, so the loop awaits `Promise.race` over
the pending map — some pending entry (chosen nondeterministically, first to
finish) resolves, is merged, and is deleted. `drain`: every file has been
dispatched and the remaining pending entries are awaited and merged. -/
inductive DStep (files : List SuitesResult) (bound : Nat) : DState → DState → Prop
  | dispatch (s : DState) (f : SuitesResult) :
      s.pending.length < bound →
      files.get? s.position = some f →
      DStep files bound s
        { position := s.position + 1, pending := s.pending ++ [(s.position, f)],
          results := s.results }
  | race (s : DState) (l₁ l₂ : List (Nat × SuitesResult)) (i : Nat) (r : SuitesResult) :
      s.position < files.length →
      ¬s.pending.length < bound →
      s.pending = l₁ ++ (i, r) :: l₂ →
      DStep files bound s
        { position := s.position, pending := l₁ ++ l₂, results := merge s.results r }
  | drain (s : DState) (l₁ l₂ : List (Nat × SuitesResult)) (i : Nat) (r : SuitesResult) :
      s.position = files.length →
      s.pending = l₁ ++ (i, r) :: l₂ →
      DStep files bound s
        { position := s.position, pending := l₁ ++ l₂, results := merge s.results r }

/-- Reachability of a dispatch state from the initial state. -/
def DReach (files : List SuitesResult) (bound : Nat) : DState → Prop :=
  Relation.ReflTransGen (DStep files bound) dInit

/-- A loop step the suite executor passes through untouched: `beforeEach`
and `afterEach` ran clean and `executeTest` returned (did not itself
throw). -/
def cleanStep (rl : ThrownVal → Nat) (env : SuiteEnv) (t : TestConfig) (j : Nat) : Prop :=
  (env.step j).before = .ok ∧ (env.step j).after = .ok
    ∧ isDone (executeTest rl t (env.step j).inv).1 = true

/-! Concrete fixtures used by counterexamples and witnesses. -/

/-- Stack-position oracle returning a fixed interior line. -/
def demoReadLine : ThrownVal → Nat := fun _ => 7

/-- Stack-position oracle that resolves every error to line 1, exercising
the fallback to the test's declared start line. -/
def demoReadLineOne : ThrownVal → Nat := fun _ => 1

/-- Suite-level stack-position oracle. -/
def demoReadPos : ErrorV → Nat × String := fun _ => (7, "demo.ts")

/-- Line range of the demo test. -/
def demoLines : Lines := { start := 10, stop := 20 }

/-- A plain test with no expectation. -/
def demoTest : TestConfig :=
  { className := "DemoSuite", methodName := "m1", description := "d1",
    lines := demoLines, file := "demo.ts", skip := false, shouldThrow := none }

/-- A skipped test. -/
def demoTestSkip : TestConfig := { demoTest with methodName := "m2", skip := true }

/-- A test declaring `shouldThrow = true`. -/
def demoTestTrue : TestConfig :=
  { demoTest with methodName := "m3", shouldThrow := some (.bool true) }

/-- A test expecting an error message containing `"oo"`. -/
def demoTestSub : TestConfig :=
  { demoTest with methodName := "m4", shouldThrow := some (.substring "oo") }

/-- A test expecting an error message containing `""` (JavaScript-falsy). -/
def demoTestSubEmpty : TestConfig :=
  { demoTest with methodName := "m5", shouldThrow := some (.substring "") }

/-- Invocation that returns normally with nothing recorded. -/
def demoInvOk : Invocation := { outcome := .ok, recorded := [], output := [] }

/-- Invocation that throws `new Error('boom')`. -/
def demoInvBoom : Invocation :=
  { outcome := .threw (.err (mkError "boom")), recorded := [], output := [] }

/-- Invocation that loses the timeout race. -/
def demoInvTimeout : Invocation := { outcome := .timedOut, recorded := [], output := [] }

/-- A two-test demo suite. -/
def demoSuite : SuiteConfig :=
  { className := "DemoSuite", file := "demo.ts", lines := demoLines,
    tests := [demoTest, demoTestSkip] }

/-- A fully clean suite environment. -/
def demoEnvOk : SuiteEnv :=
  { beforeAll := .ok, step := fun _ => { before := .ok, inv := demoInvOk, after := .ok },
    afterAll := .ok }

/-- Environment whose `beforeAll` hook throws. -/
def demoEnvBadBeforeAll : SuiteEnv :=
  { demoEnvOk with beforeAll := .errored (mkError "ba boom") }

/-- Environment whose second `beforeEach` run (index 1) throws. -/
def demoEnvBadBeforeEach : SuiteEnv :=
  { demoEnvOk with
    step := fun i =>
      if i = 1 then { before := .errored (mkError "be boom"), inv := demoInvOk, after := .ok }
      else { before := .ok, inv := demoInvOk, after := .ok } }

/-- The failing result `executeTest` produces for `demoTest` under
`demoReadLineOne` and `demoInvBoom`: the `(uncaught)` assertion falls back
to the declared start line 10 because the oracle resolves to line 1. -/
def demoFailResult : TestResult :=
  { status := .fail, className := "DemoSuite", methodName := "m1", description := "d1",
    lines := demoLines, file := "demo.ts", error := some (.err (mkError "boom")),
    assertions := [{ className := some "DemoSuite", methodName := some "m1",
                     file := "demo.ts", line := 10, operator := "throws",
                     text := "(uncaught)", message := some "boom",
                     error := some (.err (mkError "boom")) }],
    output := [] }

/-- An aggregate with one failed test. -/
def demoAggBad : SuitesResult :=
  { passed := 0, failed := 1, skipped := 0, total := 1, suites := [] }

/-- Per-file isolated result: one passed test. -/
def demoFileA : SuitesResult :=
  { passed := 1, failed := 0, skipped := 0, total := 1, suites := [] }

/-- Per-file isolated result: one failed test. -/
def demoFileB : SuitesResult :=
  { passed := 0, failed := 1, skipped := 0, total := 1, suites := [] }

/-! Theorems. -/

/-- C3: settled as a code bug. For `shouldThrow = true`, a throwing test
method yields `success` (first conjunct), but a normally-returning test
method does not yield a `fail` result: `checkError`'s boolean branch
`throw`s, so `executeTest` itself rejects with the
`Expected an error to be thrown` error (second and third conjuncts),
contradicting the spec's step 7 ("true and no error → fail") and its §7
propagation policy ("failures inside a single test never abort the
suite"). -/
theorem shouldThrow_true_escapes :
    statusOf (executeTest demoReadLine demoTestTrue demoInvBoom).1 = some .success
    ∧ (executeTest demoReadLine demoTestTrue demoInvOk).1
        = .threw (mkError "Expected an error to be thrown")
    ∧ statusOf (executeTest demoReadLine demoTestTrue demoInvOk).1 ≠ some .fail := by
  refine ⟨by decide, by decide, by decide⟩

/-- C4 counterexample: a test with `shouldThrow = true` that loses the
timeout race is reported `fail`, although the claim says the synthesized
timeout error is validated against `shouldThrow` (which `true` satisfies)
and hence would yield `success`. -/
theorem timeout_claim_counterexample :
    statusOf (executeTest demoReadLine demoTestTrue demoInvTimeout).1 = some .fail
    ∧ statusOf (executeTest demoReadLine demoTestTrue demoInvTimeout).1 ≠ some .success := by
  refine ⟨by decide, by decide⟩

/-- C4 as amended: when the invocation loses the timeout race,
`executeTest` synthesizes `new Error('Operation timed out')` but — because
the `err === TIMEOUT` branch is an `else if` sibling of the `shouldThrow`
branch — never runs `checkError` on it: every non-skipped timed-out test
fails with that error, whatever its `shouldThrow` expectation. -/
theorem timeout_always_fails (rl : ThrownVal → Nat) (test : TestConfig) (inv : Invocation)
    (hskip : test.skip = false) (hto : inv.outcome = .timedOut) :
    ∃ r, (executeTest rl test inv).1 = .done r ∧ r.status = .fail
      ∧ r.error = some (.err (mkError "Operation timed out")) := by
  simp only [executeTest, hskip, hto]
  exact ⟨_, rfl, rfl, rfl⟩

/-- C4 witness: the amended theorem at the concrete timed-out
`shouldThrow = true` test. -/
theorem timeout_always_fails_witness :
    statusOf (executeTest demoReadLine demoTestTrue demoInvTimeout).1 = some .fail := by
  obtain ⟨r, h1, h2, h3⟩ :=
    timeout_always_fails demoReadLine demoTestTrue demoInvTimeout rfl rfl
  rw [h1, statusOf, h2]

/-- C6 counterexample: an aggregate with `failed = 1` still exits with code
0 on the single-file path (`process.exit(0)` is unconditional), while the
claim's rule demands 1. -/
theorem exit_code_counterexample :
    specExitCode demoAggBad = 1 ∧ singleFileExit demoAggBad = 0
    ∧ singleFileExit demoAggBad ≠ specExitCode demoAggBad := by
  refine ⟨by decide, by decide, by decide⟩

/-- C6 as amended: the single-file in-process path of `Executor.exec`
always exits with code 0 (the aggregate travels over IPC instead), so it
agrees with the spec's `0 iff failed == 0` rule exactly when nothing
failed. -/
theorem single_file_exit_always_zero (r : SuitesResult) :
    singleFileExit r = 0 ∧ (singleFileExit r = specExitCode r ↔ r.failed = 0) := by
  refine ⟨rfl, ?_⟩
  by_cases h : r.failed = 0 <;> simp [singleFileExit, specExitCode, h]

/-- C5 counterexample: on a single-CPU machine the code's bound
`os.cpus().length - 1` is 0, not the claimed minimum of 1. -/
theorem executors_no_minimum :
    executorsBound 1 = 0 ∧ max (executorsBound 1) 1 = 1
    ∧ executorsBound 1 ≠ max (executorsBound 1) 1 := by
  refine ⟨by decide, by decide, by decide⟩

/-- C8 counterexample: `shouldThrow` set to the empty substring is falsy in
JavaScript, so the `else if (test.shouldThrow)` guard skips `checkError`
entirely and the test fails with the original thrown error, although
`'boom'` contains `''` and the claim says the test yields `success`. -/
theorem substring_empty_counterexample :
    jsIncludes "boom" "" = true
    ∧ statusOf (executeTest demoReadLine demoTestSubEmpty demoInvBoom).1 = some .fail
    ∧ statusOf (executeTest demoReadLine demoTestSubEmpty demoInvBoom).1 ≠ some .success := by
  refine ⟨by decide, by decide, by decide⟩


/-- Counter fields of a fold of `merge` telescope: any projection that is
additive over one `merge` is additive over the whole fold. -/
theorem foldl_merge_count (f : SuitesResult → Nat) (hf : ∀ a b, f (merge a b) = f a + f b) :
    ∀ (l : List SuitesResult) (init : SuitesResult),
      f (l.foldl merge init) = f init + (l.map f).sum := by
  intro l
  induction l with
  | nil => intro init; simp
  | cons a l ih =>
    intro init
    rw [List.foldl_cons, ih, hf, List.map_cons, List.sum_cons]
    omega

/-- The suite list of a fold of `merge` is the initial list followed by the
concatenation of every merged entry's suites, in fold order. -/
theorem foldl_merge_suites :
    ∀ (l : List SuitesResult) (init : SuitesResult),
      (l.foldl merge init).suites = init.suites ++ l.flatMap (fun r => r.suites) := by
  intro l
  induction l with
  | nil => intro init; simp
  | cons a l ih =>
    intro init
    rw [List.foldl_cons, ih, List.flatMap_cons]
    show (init.suites ++ a.suites) ++ _ = _
    rw [List.append_assoc]

/-- C7: `Executor.merge` is commutative up to suite-list permutation
(counters agree exactly, suite lists are equal as multisets), associative
(exact equality), and consequently a multi-file aggregate folded from
per-file results is independent of completion order: folding any
permutation yields the same four counters and a permuted suite list. -/
theorem merge_order_independent (A B C init : SuitesResult)
    (l₁ l₂ : List SuitesResult) (hperm : l₁.Perm l₂) :
    ((merge A B).passed = (merge B A).passed ∧ (merge A B).failed = (merge B A).failed
      ∧ (merge A B).skipped = (merge B A).skipped ∧ (merge A B).total = (merge B A).total)
    ∧ (merge A B).suites.Perm (merge B A).suites
    ∧ merge (merge A B) C = merge A (merge B C)
    ∧ ((l₁.foldl merge init).passed = (l₂.foldl merge init).passed
      ∧ (l₁.foldl merge init).failed = (l₂.foldl merge init).failed
      ∧ (l₁.foldl merge init).skipped = (l₂.foldl merge init).skipped
      ∧ (l₁.foldl merge init).total = (l₂.foldl merge init).total)
    ∧ (l₁.foldl merge init).suites.Perm (l₂.foldl merge init).suites := by
  refine ⟨⟨Nat.add_comm _ _, Nat.add_comm _ _, Nat.add_comm _ _, Nat.add_comm _ _⟩,
    List.perm_append_comm, ?_, ⟨?_, ?_, ?_, ?_⟩, ?_⟩
  · simp [merge, Nat.add_assoc, List.append_assoc]
  · rw [foldl_merge_count (fun r => r.passed) (fun a b => rfl) l₁ init,
      foldl_merge_count (fun r => r.passed) (fun a b => rfl) l₂ init,
      (hperm.map (fun r => r.passed)).sum_eq]
  · rw [foldl_merge_count (fun r => r.failed) (fun a b => rfl) l₁ init,
      foldl_merge_count (fun r => r.failed) (fun a b => rfl) l₂ init,
      (hperm.map (fun r => r.failed)).sum_eq]
  · rw [foldl_merge_count (fun r => r.skipped) (fun a b => rfl) l₁ init,
      foldl_merge_count (fun r => r.skipped) (fun a b => rfl) l₂ init,
      (hperm.map (fun r => r.skipped)).sum_eq]
  · rw [foldl_merge_count (fun r => r.total) (fun a b => rfl) l₁ init,
      foldl_merge_count (fun r => r.total) (fun a b => rfl) l₂ init,
      (hperm.map (fun r => r.total)).sum_eq]
  · rw [foldl_merge_suites l₁ init, foldl_merge_suites l₂ init]
    exact (hperm.flatMap_right (fun r => r.suites)).append_left _

/-- C7 witness: the order-independence theorem at two concrete aggregates
folded in both orders. -/
theorem merge_order_independent_witness :
    ((merge demoFileA demoFileB).passed = (merge demoFileB demoFileA).passed
      ∧ (merge demoFileA demoFileB).failed = (merge demoFileB demoFileA).failed
      ∧ (merge demoFileA demoFileB).skipped = (merge demoFileB demoFileA).skipped
      ∧ (merge demoFileA demoFileB).total = (merge demoFileB demoFileA).total)
    ∧ (merge demoFileA demoFileB).suites.Perm (merge demoFileB demoFileA).suites
    ∧ merge (merge demoFileA demoFileB) demoAggBad
        = merge demoFileA (merge demoFileB demoAggBad)
    ∧ (([demoFileA, demoFileB].foldl merge emptySuites).passed
        = ([demoFileB, demoFileA].foldl merge emptySuites).passed
      ∧ ([demoFileA, demoFileB].foldl merge emptySuites).failed
        = ([demoFileB, demoFileA].foldl merge emptySuites).failed
      ∧ ([demoFileA, demoFileB].foldl merge emptySuites).skipped
        = ([demoFileB, demoFileA].foldl merge emptySuites).skipped
      ∧ ([demoFileA, demoFileB].foldl merge emptySuites).total
        = ([demoFileB, demoFileA].foldl merge emptySuites).total)
    ∧ ([demoFileA, demoFileB].foldl merge emptySuites).suites.Perm
        ([demoFileB, demoFileA].foldl merge emptySuites).suites :=
  merge_order_independent demoFileA demoFileB demoAggBad emptySuites
    [demoFileA, demoFileB] [demoFileB, demoFileA] (by decide)


/-- Any additive counter projection is conserved by the dispatch loop: what
has been merged, what is pending, and what is not yet dispatched always sum
to the whole file list's total. -/
theorem dreach_sum_aux (files : List SuitesResult) (bound : Nat)
    (f : SuitesResult → Nat) (hf : ∀ a b, f (merge a b) = f a + f b)
    (hz : f emptySuites = 0) :
    ∀ s, DReach files bound s →
      f s.results + (s.pending.map (fun p => f p.2)).sum
        + ((files.drop s.position).map f).sum = (files.map f).sum := by
  intro s h
  induction h with
  | refl => simp [dInit, hz]
  | @tail b c hab hbc ih =>
    cases hbc with
    | dispatch f' hlt hget =>
      have hpos : b.position < files.length := by
        by_contra hge
        rw [List.get?_eq_none.mpr (by omega)] at hget
        cases hget
      have hdrop : files.drop b.position = f' :: files.drop (b.position + 1) := by
        rw [List.drop_eq_getElem_cons hpos]
        have hfe : files[b.position] = f' := by
          have hq := List.get?_eq_getElem? files b.position
          rw [hget] at hq
          exact (List.getElem?_eq_some.mp hq.symm).2
        rw [hfe]
      rw [hdrop] at ih
      simp only [List.map_append, List.sum_append, List.map_cons, List.sum_cons,
        List.map_nil, List.sum_nil] at ih ⊢
      omega
    | race l₁ l₂ i r hpos hbound hpend =>
      rw [hpend] at ih
      simp only [List.map_append, List.sum_append, List.map_cons, List.sum_cons, hf] at ih ⊢
      omega
    | drain l₁ l₂ i r hpos hpend =>
      rw [hpend] at ih
      simp only [List.map_append, List.sum_append, List.map_cons, List.sum_cons, hf] at ih ⊢
      omega

/-- The pending map never exceeds the bound: dispatching requires a free
slot and every other step shrinks the map. -/
theorem dreach_pending_le (files : List SuitesResult) (bound : Nat) :
    ∀ s, DReach files bound s → s.pending.length ≤ bound := by
  intro s h
  induction h with
  | refl => simp [dInit]
  | tail hab hbc ih =>
    cases hbc with
    | dispatch f' hlt hget =>
      simp only [List.length_append, List.length_cons, List.length_nil]
      omega
    | race l₁ l₂ i r hpos hbound hpend =>
      rw [hpend] at ih
      simp only [List.length_append, List.length_cons] at ih ⊢
      omega
    | drain l₁ l₂ i r hpos hpend =>
      rw [hpend] at ih
      simp only [List.length_append, List.length_cons] at ih ⊢
      omega

/-- C5 as amended: the code's concurrency bound is `cpus - 1` with no
enforced minimum (see `executors_no_minimum` for the single-CPU case), and
for any bound and file list the dispatch loop of `Executor.exec` keeps at
most `bound` pending entries in every reachable state, while any completed
dispatch (all files handed out, pending drained) carries aggregate counters
equal to the field-wise sum of the per-file isolated results. -/
theorem dispatch_bound_and_sum (files : List SuitesResult) (bound : Nat) (s : DState)
    (h : DReach files bound s) :
    s.pending.length ≤ bound
    ∧ (s.position = files.length → s.pending = [] →
        s.results.passed = (files.map (fun r => r.passed)).sum
        ∧ s.results.failed = (files.map (fun r => r.failed)).sum
        ∧ s.results.skipped = (files.map (fun r => r.skipped)).sum
        ∧ s.results.total = (files.map (fun r => r.total)).sum) := by
  refine ⟨dreach_pending_le files bound s h, fun hpos hpend => ⟨?_, ?_, ?_, ?_⟩⟩
  · have := dreach_sum_aux files bound (fun r => r.passed) (fun a b => rfl) rfl s h
    rw [hpos, hpend] at this
    simpa [List.drop_length] using this
  · have := dreach_sum_aux files bound (fun r => r.failed) (fun a b => rfl) rfl s h
    rw [hpos, hpend] at this
    simpa [List.drop_length] using this
  · have := dreach_sum_aux files bound (fun r => r.skipped) (fun a b => rfl) rfl s h
    rw [hpos, hpend] at this
    simpa [List.drop_length] using this
  · have := dreach_sum_aux files bound (fun r => r.total) (fun a b => rfl) rfl s h
    rw [hpos, hpend] at this
    simpa [List.drop_length] using this

/-- C5 witness: a full two-file dispatch under bound 1 — dispatch, race,
dispatch, drain — reaching the terminal state, whose aggregate equals the
field-wise sum of the two isolated results. -/
theorem dispatch_bound_and_sum_witness :
    (({ position := 2, pending := [],
        results := merge (merge emptySuites demoFileA) demoFileB } : DState).pending.length ≤ 1)
    ∧ (({ position := 2, pending := [],
          results := merge (merge emptySuites demoFileA) demoFileB } : DState).position
          = [demoFileA, demoFileB].length →
        ({ position := 2, pending := [],
           results := merge (merge emptySuites demoFileA) demoFileB } : DState).pending = [] →
        (merge (merge emptySuites demoFileA) demoFileB).passed
          = ([demoFileA, demoFileB].map (fun r => r.passed)).sum
        ∧ (merge (merge emptySuites demoFileA) demoFileB).failed
          = ([demoFileA, demoFileB].map (fun r => r.failed)).sum
        ∧ (merge (merge emptySuites demoFileA) demoFileB).skipped
          = ([demoFileA, demoFileB].map (fun r => r.skipped)).sum
        ∧ (merge (merge emptySuites demoFileA) demoFileB).total
          = ([demoFileA, demoFileB].map (fun r => r.total)).sum) := by
  have s1 : DStep [demoFileA, demoFileB] 1 dInit
      { position := 1, pending := [(0, demoFileA)], results := emptySuites } := by
    have := @DStep.dispatch [demoFileA, demoFileB] 1 dInit demoFileA
      (by decide) (by decide)
    simpa [dInit] using this
  have s2 : DStep [demoFileA, demoFileB] 1
      { position := 1, pending := [(0, demoFileA)], results := emptySuites }
      { position := 1, pending := [], results := merge emptySuites demoFileA } := by
    have := @DStep.race [demoFileA, demoFileB] 1
      { position := 1, pending := [(0, demoFileA)], results := emptySuites }
      [] [] 0 demoFileA (by decide) (by decide) rfl
    simpa using this
  have s3 : DStep [demoFileA, demoFileB] 1
      { position := 1, pending := [], results := merge emptySuites demoFileA }
      { position := 2, pending := [(1, demoFileB)], results := merge emptySuites demoFileA } := by
    have := @DStep.dispatch [demoFileA, demoFileB] 1
      { position := 1, pending := [], results := merge emptySuites demoFileA }
      demoFileB (by decide) (by decide)
    simpa using this
  have s4 : DStep [demoFileA, demoFileB] 1
      { position := 2, pending := [(1, demoFileB)], results := merge emptySuites demoFileA }
      { position := 2, pending := [],
        results := merge (merge emptySuites demoFileA) demoFileB } := by
    have := @DStep.drain [demoFileA, demoFileB] 1
      { position := 2, pending := [(1, demoFileB)], results := merge emptySuites demoFileA }
      [] [] 1 demoFileB rfl rfl
    simpa using this
  exact dispatch_bound_and_sum [demoFileA, demoFileB] 1 _
    (Relation.ReflTransGen.tail
      (Relation.ReflTransGen.tail
        (Relation.ReflTransGen.tail
          (Relation.ReflTransGen.tail Relation.ReflTransGen.refl s1) s2) s3) s4)


/-- A result `isDone` deems finished is a `done`. -/
theorem isDone_exists {x : ExecResult} (h : isDone x = true) : ∃ r, x = .done r := by
  cases x with
  | done r => exact ⟨r, rfl⟩
  | threw e => simp [isDone] at h

/-- Running the loop over a prefix of clean steps neither aborts nor drops
a test: it appends exactly the isolated per-test results and counts each
test exactly once. -/
theorem runTests_clean (rl : ThrownVal → Nat) (rp : ErrorV → Nat × String)
    (suite : SuiteConfig) (env : SuiteEnv) :
    ∀ (ts : List TestConfig) (i : Nat) (st : LoopState),
    (∀ j (hj : j < ts.length), cleanStep rl env (ts.get ⟨j, hj⟩) (i + j)) →
    (runTests rl rp suite env ts i st).2 = none
    ∧ (runTests rl rp suite env ts i st).1.tests = st.tests ++ doneResults rl env ts i
    ∧ (runTests rl rp suite env ts i st).1.success + (runTests rl rp suite env ts i st).1.fail
        + (runTests rl rp suite env ts i st).1.skip
      = st.success + st.fail + st.skip + ts.length := by
  intro ts
  induction ts with
  | nil =>
    intro i st h
    simp [runTests, doneResults]
  | cons t rest ih =>
    intro i st h
    have h0 : cleanStep rl env t i := h 0 (Nat.succ_pos _)
    obtain ⟨hb, ha, hd⟩ := h0
    obtain ⟨r, hr⟩ := isDone_exists hd
    have hx : executeTest rl t (env.step i).inv
        = (.done r, (executeTest rl t (env.step i).inv).2) := by
      rw [← hr]
    have hsh : ∀ j (hj : j < rest.length), cleanStep rl env (rest.get ⟨j, hj⟩) (i + 1 + j) := by
      intro j hj
      have h2 := h (j + 1) (Nat.succ_lt_succ hj)
      rw [show i + (j + 1) = i + 1 + j by omega] at h2
      exact h2
    have ihh := ih (i + 1)
      ({ bump st r.status with
         tests := st.tests ++ [r],
         events := st.events ++ (executeTest rl t (env.step i).inv).2 }) hsh
    simp only [runTests, hb, affixProcess, affixError]
    rw [hx]
    dsimp only
    rw [ha]
    simp only [affixProcess, affixError]
    refine ⟨ihh.1, ?_, ?_⟩
    · rw [ihh.2.1]
      simp only [doneResults, hr]
      simp [List.append_assoc]
    · rw [ihh.2.2]
      cases r.status <;> simp [bump] <;> omega


/-- A clean phase makes `affixProcess` return nothing. -/
theorem affixProcess_ok (rp : ErrorV → Nat × String) (suite : SuiteConfig) (ph : String) :
    affixProcess rp suite ph .ok = none := rfl

/-- A failing phase makes `affixProcess` produce the synthetic suite error. -/
theorem affixProcess_some (rp : ErrorV → Nat × String) (suite : SuiteConfig) (ph : String)
    (out : PhaseOutcome) (e : ErrorV) (h : affixError suite ph out = some e) :
    affixProcess rp suite ph out = some (generateSuiteError rp suite ph e) := by
  unfold affixProcess
  rw [h]

/-- A `beforeEach` failure at step `k` (all earlier steps clean) makes the
loop throw `BREAKOUT` right there: the accumulated list is exactly the `k`
earlier isolated results followed by the one synthetic suite-error result,
and no later test is touched. -/
theorem runTests_fail_before (rl : ThrownVal → Nat) (rp : ErrorV → Nat × String)
    (suite : SuiteConfig) (env : SuiteEnv) :
    ∀ (k : Nat) (ts : List TestConfig) (i : Nat) (st : LoopState) (e : ErrorV)
      (hk : k < ts.length),
    (∀ j (hj : j < k), cleanStep rl env (ts.get ⟨j, Nat.lt_trans hj hk⟩) (i + j)) →
    affixError suite "beforeEach" (env.step (i + k)).before = some e →
    (runTests rl rp suite env ts i st).2 = some .breakout
    ∧ (runTests rl rp suite env ts i st).1.tests
        = st.tests ++ doneResults rl env (ts.take k) i
            ++ [(generateSuiteError rp suite "beforeEach" e).1] := by
  intro k
  induction k with
  | zero =>
    intro ts i st e hk hclean hfail
    cases ts with
    | nil => simp at hk
    | cons t rest =>
      simp only [Nat.add_zero] at hfail
      simp only [runTests]
      rw [affixProcess_some rp suite "beforeEach" _ e hfail]
      simp [doneResults, List.take]
  | succ k ihk =>
    intro ts i st e hk hclean hfail
    cases ts with
    | nil => simp at hk
    | cons t rest =>
      have h0 : cleanStep rl env t i := hclean 0 (Nat.succ_pos _)
      obtain ⟨hb, ha, hd⟩ := h0
      obtain ⟨r, hr⟩ := isDone_exists hd
      have hx : executeTest rl t (env.step i).inv
          = (.done r, (executeTest rl t (env.step i).inv).2) := by
        rw [← hr]
      have hk' : k < rest.length := Nat.lt_of_succ_lt_succ hk
      have hsh : ∀ j (hj : j < k), cleanStep rl env (rest.get ⟨j, Nat.lt_trans hj hk'⟩) (i + 1 + j) := by
        intro j hj
        have h2 := hclean (j + 1) (Nat.succ_lt_succ hj)
        rw [show i + (j + 1) = i + 1 + j by omega] at h2
        exact h2
      have hfail' : affixError suite "beforeEach" (env.step (i + 1 + k)).before = some e := by
        rw [show i + 1 + k = i + (k + 1) by omega]
        exact hfail
      have ihh := ihk rest (i + 1)
        ({ bump st r.status with
           tests := st.tests ++ [r],
           events := st.events ++ (executeTest rl t (env.step i).inv).2 }) e hk' hsh hfail'
      simp only [runTests]
      rw [hb, affixProcess_ok]
      dsimp only
      rw [hx]
      dsimp only
      rw [ha, affixProcess_ok]
      dsimp only
      refine ⟨ihh.1, ?_⟩
      rw [ihh.2]
      simp only [List.take_succ_cons, doneResults, hr]
      simp [List.append_assoc]

/-- An `afterEach` failure at step `k` (all earlier steps clean, step `k`'s
`beforeEach` and test clean) makes the loop throw `BREAKOUT` after pushing
test `k`'s result: the list is the first `k + 1` isolated results followed
by the synthetic suite-error result. -/
theorem runTests_fail_after (rl : ThrownVal → Nat) (rp : ErrorV → Nat × String)
    (suite : SuiteConfig) (env : SuiteEnv) :
    ∀ (k : Nat) (ts : List TestConfig) (i : Nat) (st : LoopState) (e : ErrorV)
      (hk : k < ts.length),
    (∀ j (hj : j < k), cleanStep rl env (ts.get ⟨j, Nat.lt_trans hj hk⟩) (i + j)) →
    (env.step (i + k)).before = .ok →
    isDone (executeTest rl (ts.get ⟨k, hk⟩) (env.step (i + k)).inv).1 = true →
    affixError suite "afterEach" (env.step (i + k)).after = some e →
    (runTests rl rp suite env ts i st).2 = some .breakout
    ∧ (runTests rl rp suite env ts i st).1.tests
        = st.tests ++ doneResults rl env (ts.take (k + 1)) i
            ++ [(generateSuiteError rp suite "afterEach" e).1] := by
  intro k
  induction k with
  | zero =>
    intro ts i st e hk hclean hb hd hfail
    cases ts with
    | nil => simp at hk
    | cons t rest =>
      simp only [Nat.add_zero, List.get_cons_zero] at hb hfail
      have hd' : isDone (executeTest rl t (env.step i).inv).1 = true := hd
      obtain ⟨r, hr⟩ := isDone_exists hd'
      have hx : executeTest rl t (env.step i).inv
          = (.done r, (executeTest rl t (env.step i).inv).2) := by
        rw [← hr]
      simp only [runTests]
      rw [hb, affixProcess_ok]
      dsimp only
      rw [hx]
      dsimp only
      rw [affixProcess_some rp suite "afterEach" _ e hfail]
      dsimp only
      simp only [List.take_succ_cons, List.take_zero, doneResults, hr]
      simp [List.append_assoc]
  | succ k ihk =>
    intro ts i st e hk hclean hb hd hfail
    cases ts with
    | nil => simp at hk
    | cons t rest =>
      have h0 : cleanStep rl env t i := hclean 0 (Nat.succ_pos _)
      obtain ⟨hb0, ha0, hd0⟩ := h0
      obtain ⟨r, hr⟩ := isDone_exists hd0
      have hx : executeTest rl t (env.step i).inv
          = (.done r, (executeTest rl t (env.step i).inv).2) := by
        rw [← hr]
      have hk' : k < rest.length := Nat.lt_of_succ_lt_succ hk
      have hsh : ∀ j (hj : j < k), cleanStep rl env (rest.get ⟨j, Nat.lt_trans hj hk'⟩) (i + 1 + j) := by
        intro j hj
        have h2 := hclean (j + 1) (Nat.succ_lt_succ hj)
        rw [show i + (j + 1) = i + 1 + j by omega] at h2
        exact h2
      have hshift : i + 1 + k = i + (k + 1) := by omega
      have hb' : (env.step (i + 1 + k)).before = .ok := by rw [hshift]; exact hb
      have hd' : isDone (executeTest rl (rest.get ⟨k, hk'⟩) (env.step (i + 1 + k)).inv).1 = true := by
        rw [hshift]
        exact hd
      have hfail' : affixError suite "afterEach" (env.step (i + 1 + k)).after = some e := by
        rw [hshift]
        exact hfail
      have ihh := ihk rest (i + 1)
        ({ bump st r.status with
           tests := st.tests ++ [r],
           events := st.events ++ (executeTest rl t (env.step i).inv).2 }) e hk' hsh hb' hd' hfail'
      simp only [runTests]
      rw [hb0, affixProcess_ok]
      dsimp only
      rw [hx]
      dsimp only
      rw [ha0, affixProcess_ok]
      dsimp only
      refine ⟨ihh.1, ?_⟩
      rw [ihh.2]
      simp only [List.take_succ_cons, doneResults, hr]
      simp [List.append_assoc]


/-- A failing `beforeAll` short-circuits the suite body to the single
synthetic result. -/
theorem suiteBody_badBeforeAll (rl : ThrownVal → Nat) (rp : ErrorV → Nat × String)
    (suite : SuiteConfig) (env : SuiteEnv) (e : ErrorV)
    (h : affixError suite "beforeAll" env.beforeAll = some e) :
    (suiteBody rl rp suite env).tests = [(generateSuiteError rp suite "beforeAll" e).1]
    ∧ (suiteBody rl rp suite env).success = 0 ∧ (suiteBody rl rp suite env).fail = 0
    ∧ (suiteBody rl rp suite env).skip = 0 := by
  unfold suiteBody
  rw [affixProcess_some rp suite "beforeAll" _ e h]
  exact ⟨rfl, rfl, rfl, rfl⟩

/-- With `beforeAll` clean, a loop run that neither broke out nor escaped is
followed by a clean `afterAll`: the suite body is the loop's final state. -/
theorem suiteBody_clean (rl : ThrownVal → Nat) (rp : ErrorV → Nat × String)
    (suite : SuiteConfig) (env : SuiteEnv) (st : LoopState)
    (hba : env.beforeAll = .ok) (haa : env.afterAll = .ok)
    (hq : runTests rl rp suite env suite.tests 0
        { success := 0, fail := 0, skip := 0, tests := [], events := [.suiteBefore suite] }
      = (st, none)) :
    suiteBody rl rp suite env = st := by
  unfold suiteBody
  rw [hba, affixProcess_ok]
  dsimp only
  rw [hq]
  dsimp only
  rw [haa, affixProcess_ok]

/-- With `beforeAll` clean, a loop run that threw `BREAKOUT` is the whole
suite body: `afterAll` is skipped. -/
theorem suiteBody_breakout (rl : ThrownVal → Nat) (rp : ErrorV → Nat × String)
    (suite : SuiteConfig) (env : SuiteEnv) (st : LoopState)
    (hba : env.beforeAll = .ok)
    (hq : runTests rl rp suite env suite.tests 0
        { success := 0, fail := 0, skip := 0, tests := [], events := [.suiteBefore suite] }
      = (st, some .breakout)) :
    suiteBody rl rp suite env = st := by
  unfold suiteBody
  rw [hba, affixProcess_ok]
  dsimp only
  rw [hq]

/-- With `beforeAll` and the whole loop clean, a failing `afterAll` appends
its synthetic result to the loop's final state. -/
theorem suiteBody_badAfterAll (rl : ThrownVal → Nat) (rp : ErrorV → Nat × String)
    (suite : SuiteConfig) (env : SuiteEnv) (st : LoopState) (e : ErrorV)
    (hba : env.beforeAll = .ok)
    (hq : runTests rl rp suite env suite.tests 0
        { success := 0, fail := 0, skip := 0, tests := [], events := [.suiteBefore suite] }
      = (st, none))
    (haa : affixError suite "afterAll" env.afterAll = some e) :
    (suiteBody rl rp suite env).tests
      = st.tests ++ [(generateSuiteError rp suite "afterAll" e).1] := by
  unfold suiteBody
  rw [hba, affixProcess_ok]
  dsimp only
  rw [hq]
  dsimp only
  rw [affixProcess_some rp suite "afterAll" _ e haa]

/-- C1 as amended: every completed `executeSuite` satisfies
`total = success + fail` (assigned on the way out, skip excluded), and
whenever the run is not aborted — every lifecycle phase ran clean and every
`executeTest` returned — `success + fail + skip` equals the number of
declared tests. (An aborted run keeps the counts of the tests that ran; see
the counterexample for a hook failure leaving the sum below the declared
count.) -/
theorem suite_counts (rl : ThrownVal → Nat) (rp : ErrorV → Nat × String)
    (suite : SuiteConfig) (env : SuiteEnv) :
    (executeSuite rl rp suite env).1.total
      = (executeSuite rl rp suite env).1.success + (executeSuite rl rp suite env).1.fail
    ∧ (env.beforeAll = .ok → env.afterAll = .ok →
        (∀ j (hj : j < suite.tests.length), cleanStep rl env (suite.tests.get ⟨j, hj⟩) j) →
        (executeSuite rl rp suite env).1.success + (executeSuite rl rp suite env).1.fail
            + (executeSuite rl rp suite env).1.skip
          = suite.tests.length) := by
  constructor
  · rfl
  · intro hba haa hclean
    have hrun := runTests_clean rl rp suite env suite.tests 0
      { success := 0, fail := 0, skip := 0, tests := [], events := [.suiteBefore suite] }
      (fun j hj => by rw [Nat.zero_add]; exact hclean j hj)
    rcases hq : runTests rl rp suite env suite.tests 0
        { success := 0, fail := 0, skip := 0, tests := [], events := [.suiteBefore suite] }
      with ⟨st, xit⟩
    rw [hq] at hrun
    have hx : xit = none := hrun.1
    subst hx
    have hsb := suiteBody_clean rl rp suite env st hba haa hq
    show (suiteBody rl rp suite env).success + (suiteBody rl rp suite env).fail
        + (suiteBody rl rp suite env).skip = suite.tests.length
    rw [hsb]
    simpa using hrun.2.2

/-- C1 counterexample: a suite of two tests whose `beforeAll` hook throws
completes with `success + fail + skip = 0`, not the declared test count 2;
`total = success + fail` still holds. -/
theorem suite_counts_break :
    (executeSuite demoReadLine demoReadPos demoSuite demoEnvBadBeforeAll).1.success
        + (executeSuite demoReadLine demoReadPos demoSuite demoEnvBadBeforeAll).1.fail
        + (executeSuite demoReadLine demoReadPos demoSuite demoEnvBadBeforeAll).1.skip = 0
    ∧ demoSuite.tests.length = 2
    ∧ ¬((executeSuite demoReadLine demoReadPos demoSuite demoEnvBadBeforeAll).1.success
        + (executeSuite demoReadLine demoReadPos demoSuite demoEnvBadBeforeAll).1.fail
        + (executeSuite demoReadLine demoReadPos demoSuite demoEnvBadBeforeAll).1.skip
      = demoSuite.tests.length) := by
  refine ⟨by decide, by decide, by decide⟩

/-- C1 witness: the amended theorem at a concrete clean two-test suite (one
passing, one skipped): `1 + 0 + 1 = 2` and `total = 1`. -/
theorem suite_counts_witness :
    (executeSuite demoReadLine demoReadPos demoSuite demoEnvOk).1.success
        + (executeSuite demoReadLine demoReadPos demoSuite demoEnvOk).1.fail
        + (executeSuite demoReadLine demoReadPos demoSuite demoEnvOk).1.skip
      = demoSuite.tests.length :=
  (suite_counts demoReadLine demoReadPos demoSuite demoEnvOk).2 rfl rfl (by
    intro j hj
    rcases j with _ | _ | j
    · exact ⟨rfl, rfl, show isDone (executeTest demoReadLine demoTest demoInvOk).1 = true by decide⟩
    · exact ⟨rfl, rfl, show isDone (executeTest demoReadLine demoTestSkip demoInvOk).1 = true by decide⟩
    · have hj2 : j + 2 < 2 := hj
      omega)


/-- C2: a lifecycle listener failure (throw or timeout) in any phase makes
`executeSuite` record exactly one suite-level synthetic `TestResult` —
status `fail`, method name equal to the phase name, a single `Assertion`
with operator `throws` and text `(outer)` — and abort the run: the result
list is exactly the isolated results of the tests that already ran,
unchanged, followed by that one synthetic entry, and no later test is
executed. The four conjuncts after the first cover a failing `beforeAll`,
`beforeEach` (at any index `k`), `afterEach` (at any index `k`) and
`afterAll`. -/
theorem lifecycle_failure_aborts (rl : ThrownVal → Nat) (rp : ErrorV → Nat × String)
    (suite : SuiteConfig) (env : SuiteEnv) :
    (∀ (phase : String) (e : ErrorV),
        (generateSuiteError rp suite phase e).1.status = .fail
        ∧ (generateSuiteError rp suite phase e).1.methodName = phase
        ∧ ∃ a, (generateSuiteError rp suite phase e).1.assertions = [a]
            ∧ a.operator = "throws" ∧ a.text = "(outer)")
    ∧ (∀ e : ErrorV, affixError suite "beforeAll" env.beforeAll = some e →
        (executeSuite rl rp suite env).1.tests
          = [(generateSuiteError rp suite "beforeAll" e).1])
    ∧ (∀ (k : Nat) (hk : k < suite.tests.length) (e : ErrorV),
        env.beforeAll = .ok →
        (∀ j (hj : j < k), cleanStep rl env (suite.tests.get ⟨j, Nat.lt_trans hj hk⟩) j) →
        affixError suite "beforeEach" (env.step k).before = some e →
        (executeSuite rl rp suite env).1.tests
          = doneResults rl env (suite.tests.take k) 0
              ++ [(generateSuiteError rp suite "beforeEach" e).1])
    ∧ (∀ (k : Nat) (hk : k < suite.tests.length) (e : ErrorV),
        env.beforeAll = .ok →
        (∀ j (hj : j < k), cleanStep rl env (suite.tests.get ⟨j, Nat.lt_trans hj hk⟩) j) →
        (env.step k).before = .ok →
        isDone (executeTest rl (suite.tests.get ⟨k, hk⟩) (env.step k).inv).1 = true →
        affixError suite "afterEach" (env.step k).after = some e →
        (executeSuite rl rp suite env).1.tests
          = doneResults rl env (suite.tests.take (k + 1)) 0
              ++ [(generateSuiteError rp suite "afterEach" e).1])
    ∧ (∀ e : ErrorV,
        env.beforeAll = .ok →
        (∀ j (hj : j < suite.tests.length), cleanStep rl env (suite.tests.get ⟨j, hj⟩) j) →
        affixError suite "afterAll" env.afterAll = some e →
        (executeSuite rl rp suite env).1.tests
          = doneResults rl env suite.tests 0
              ++ [(generateSuiteError rp suite "afterAll" e).1]) := by
  refine ⟨?_, ?_, ?_, ?_, ?_⟩
  · intro phase e
    exact ⟨rfl, rfl, ⟨_, rfl, rfl, rfl⟩⟩
  · intro e he
    show (suiteBody rl rp suite env).tests = _
    exact (suiteBody_badBeforeAll rl rp suite env e he).1
  · intro k hk e hba hclean hfail
    have hF := runTests_fail_before rl rp suite env k suite.tests 0
      { success := 0, fail := 0, skip := 0, tests := [], events := [.suiteBefore suite] }
      e hk (fun j hj => by rw [Nat.zero_add]; exact hclean j hj)
      (by rw [Nat.zero_add]; exact hfail)
    rcases hq : runTests rl rp suite env suite.tests 0
        { success := 0, fail := 0, skip := 0, tests := [], events := [.suiteBefore suite] }
      with ⟨st, xit⟩
    rw [hq] at hF
    have hx : xit = some .breakout := hF.1
    subst hx
    have hsb := suiteBody_breakout rl rp suite env st hba hq
    show (suiteBody rl rp suite env).tests = _
    rw [hsb]
    simpa using hF.2
  · intro k hk e hba hclean hbk hdk hfail
    have hF := runTests_fail_after rl rp suite env k suite.tests 0
      { success := 0, fail := 0, skip := 0, tests := [], events := [.suiteBefore suite] }
      e hk (fun j hj => by rw [Nat.zero_add]; exact hclean j hj)
      (by rw [Nat.zero_add]; exact hbk)
      (by rw [Nat.zero_add]; exact hdk)
      (by rw [Nat.zero_add]; exact hfail)
    rcases hq : runTests rl rp suite env suite.tests 0
        { success := 0, fail := 0, skip := 0, tests := [], events := [.suiteBefore suite] }
      with ⟨st, xit⟩
    rw [hq] at hF
    have hx : xit = some .breakout := hF.1
    subst hx
    have hsb := suiteBody_breakout rl rp suite env st hba hq
    show (suiteBody rl rp suite env).tests = _
    rw [hsb]
    simpa using hF.2
  · intro e hba hclean haa
    have hrun := runTests_clean rl rp suite env suite.tests 0
      { success := 0, fail := 0, skip := 0, tests := [], events := [.suiteBefore suite] }
      (fun j hj => by rw [Nat.zero_add]; exact hclean j hj)
    rcases hq : runTests rl rp suite env suite.tests 0
        { success := 0, fail := 0, skip := 0, tests := [], events := [.suiteBefore suite] }
      with ⟨st, xit⟩
    rw [hq] at hrun
    have hx : xit = none := hrun.1
    subst hx
    have hsb := suiteBody_badAfterAll rl rp suite env st e hba hq haa
    show (suiteBody rl rp suite env).tests = _
    rw [hsb]
    have h2 := hrun.2.1
    simp only at h2
    rw [h2]
    simp

/-- C2 witness: the `beforeEach` conjunct at the concrete suite whose second
`beforeEach` run throws — the first test's result is kept unchanged, the
run ends with the single synthetic `beforeEach` entry, and the second test
never runs. -/
theorem lifecycle_failure_aborts_witness :
    (executeSuite demoReadLine demoReadPos demoSuite demoEnvBadBeforeEach).1.tests
      = doneResults demoReadLine demoEnvBadBeforeEach (demoSuite.tests.take 1) 0
          ++ [(generateSuiteError demoReadPos demoSuite "beforeEach" (mkError "be boom")).1] :=
  (lifecycle_failure_aborts demoReadLine demoReadPos demoSuite demoEnvBadBeforeEach).2.2.1
    1 (by decide) (mkError "be boom") rfl
    (by
      intro j hj
      rcases j with _ | j
      · exact ⟨rfl, rfl,
          show isDone (executeTest demoReadLine demoTest demoInvOk).1 = true by decide⟩
      · have hj2 : j + 1 < 1 := hj
        omega)
    (by decide)


/-- `suiteAfters` distributes over concatenation. -/
theorem suiteAfters_append (a b : List Event) :
    suiteAfters (a ++ b) = suiteAfters a ++ suiteAfters b := by
  simp [suiteAfters, List.filterMap_append]

/-- Assertion events contribute no suite-level `after` event. -/
theorem suiteAfters_assertions (l : List Assertion) :
    suiteAfters (l.map Event.assertion) = [] := by
  induction l with
  | nil => rfl
  | cons a l ih => simp [suiteAfters, List.filterMap_cons, ih]

/-- Dropping a leading test-level `before` event. -/
theorem suiteAfters_cons_testBefore (t : TestConfig) (evs : List Event) :
    suiteAfters (.testBefore t :: evs) = suiteAfters evs := by
  simp [suiteAfters, List.filterMap_cons]

/-- Dropping a leading test-level `after` event. -/
theorem suiteAfters_cons_testAfter (r : TestResult) (evs : List Event) :
    suiteAfters (.testAfter r :: evs) = suiteAfters evs := by
  simp [suiteAfters, List.filterMap_cons]

/-- Dropping a leading assertion event. -/
theorem suiteAfters_cons_assertion (a : Assertion) (evs : List Event) :
    suiteAfters (.assertion a :: evs) = suiteAfters evs := by
  simp [suiteAfters, List.filterMap_cons]

/-- `executeTest` emits no suite-level `after` event. -/
theorem suiteAfters_executeTest (rl : ThrownVal → Nat) (t : TestConfig) (inv : Invocation) :
    suiteAfters (executeTest rl t inv).2 = [] := by
  unfold executeTest finishTest
  split
  · rfl
  · dsimp only
    split
    · simp [suiteAfters_cons_testBefore, suiteAfters_assertions]
    · split
      · split
        · simp [suiteAfters_cons_testBefore, suiteAfters_append, suiteAfters_assertions,
            suiteAfters_cons_testAfter, suiteAfters_cons_assertion, suiteAfters]
      · simp [suiteAfters_cons_testBefore, suiteAfters_append, suiteAfters_assertions,
          suiteAfters_cons_testAfter, suiteAfters]

/-- `generateSuiteError` emits no suite-level `after` event. -/
theorem suiteAfters_generateSuiteError (rp : ErrorV → Nat × String) (suite : SuiteConfig)
    (d : String) (e : ErrorV) :
    suiteAfters (generateSuiteError rp suite d e).2 = [] := rfl

/-- The events attached to an `affixProcess` failure carry no suite-level
`after` event. -/
theorem suiteAfters_affixProcess (rp : ErrorV → Nat × String) (suite : SuiteConfig)
    (ph : String) (out : PhaseOutcome) (bad : TestResult) (evs : List Event)
    (h : affixProcess rp suite ph out = some (bad, evs)) : suiteAfters evs = [] := by
  unfold affixProcess at h
  cases hae : affixError suite ph out with
  | none => rw [hae] at h; cases h
  | some e =>
    rw [hae] at h
    dsimp only at h
    injection h with h2
    have h3 : (generateSuiteError rp suite ph e).2 = evs := by rw [h2]
    rw [← h3]
    exact suiteAfters_generateSuiteError rp suite ph e

/-- The loop adds no suite-level `after` event to the trace. -/
theorem suiteAfters_runTests (rl : ThrownVal → Nat) (rp : ErrorV → Nat × String)
    (suite : SuiteConfig) (env : SuiteEnv) :
    ∀ (ts : List TestConfig) (i : Nat) (st : LoopState),
    suiteAfters (runTests rl rp suite env ts i st).1.events = suiteAfters st.events := by
  intro ts
  induction ts with
  | nil => intro i st; rfl
  | cons t rest ih =>
    intro i st
    simp only [runTests]
    cases h1 : affixProcess rp suite "beforeEach" (env.step i).before with
    | some pr =>
      rcases pr with ⟨bad, evs⟩
      dsimp only
      rw [suiteAfters_append, suiteAfters_affixProcess rp suite _ _ _ _ h1]
      simp
    | none =>
      dsimp only
      rcases hx : executeTest rl t (env.step i).inv with ⟨x, evs⟩
      have hevs : suiteAfters evs = [] := by
        have h4 := suiteAfters_executeTest rl t (env.step i).inv
        rw [hx] at h4
        exact h4
      cases x with
      | threw e =>
        dsimp only
        rw [suiteAfters_append, hevs]
        simp
      | done r =>
        dsimp only
        cases h2 : affixProcess rp suite "afterEach" (env.step i).after with
        | some pr2 =>
          rcases pr2 with ⟨bad2, evs2⟩
          dsimp only
          rw [suiteAfters_append, suiteAfters_append, hevs,
            suiteAfters_affixProcess rp suite _ _ _ _ h2]
          simp
        | none =>
          dsimp only
          rw [ih]
          dsimp only
          rw [suiteAfters_append, hevs]
          simp

/-- The whole suite body emits no suite-level `after` event: the only one of
the run is appended afterwards by `executeSuite` itself. -/
theorem suiteAfters_suiteBody (rl : ThrownVal → Nat) (rp : ErrorV → Nat × String)
    (suite : SuiteConfig) (env : SuiteEnv) :
    suiteAfters (suiteBody rl rp suite env).events = [] := by
  unfold suiteBody
  cases h1 : affixProcess rp suite "beforeAll" env.beforeAll with
  | some pr =>
    rcases pr with ⟨bad, evs⟩
    dsimp only
    rw [suiteAfters_append, suiteAfters_affixProcess rp suite _ _ _ _ h1]
    rfl
  | none =>
    dsimp only
    rcases hq : runTests rl rp suite env suite.tests 0
        { success := 0, fail := 0, skip := 0, tests := [], events := [.suiteBefore suite] }
      with ⟨st, xit⟩
    have hst : suiteAfters st.events = [] := by
      have h5 := suiteAfters_runTests rl rp suite env suite.tests 0
        { success := 0, fail := 0, skip := 0, tests := [], events := [.suiteBefore suite] }
      rw [hq] at h5
      exact h5
    cases xit with
    | none =>
      dsimp only
      cases h3 : affixProcess rp suite "afterAll" env.afterAll with
      | some pr2 =>
        rcases pr2 with ⟨bad2, evs2⟩
        dsimp only
        rw [suiteAfters_append, hst, suiteAfters_affixProcess rp suite _ _ _ _ h3]
        rfl
      | none =>
        dsimp only
        exact hst
    | some xe =>
      cases xe with
      | breakout =>
        dsimp only
        exact hst
      | escaped e =>
        dsimp only
        rw [suiteAfters_append, hst, suiteAfters_generateSuiteError]
        rfl

/-- C10: `executeSuite` emits the suite-level `after` event before assigning
`result.total`, so the one emitted snapshot equals the returned result with
`total` still 0, while the returned result itself satisfies
`total = success + fail`. -/
theorem after_event_total_zero (rl : ThrownVal → Nat) (rp : ErrorV → Nat × String)
    (suite : SuiteConfig) (env : SuiteEnv) :
    suiteAfters (executeSuite rl rp suite env).2
      = [{ (executeSuite rl rp suite env).1 with total := 0 }]
    ∧ (executeSuite rl rp suite env).1.total
      = (executeSuite rl rp suite env).1.success + (executeSuite rl rp suite env).1.fail := by
  constructor
  · unfold executeSuite
    dsimp only
    rw [suiteAfters_append, suiteAfters_suiteBody]
    rfl
  · rfl


/-- Inversion of `finishTest`: a failing returned result carries exactly the
recorded assertions plus — when the error is not an `AssertionError` — one
synthetic `(uncaught)` assertion whose line falls back to the declared
start line when the stack resolves to line 1. -/
theorem finishTest_fail_assertions (rl : ThrownVal → Nat) (test : TestConfig)
    (inv : Invocation) (step : CheckResult) (r : TestResult) (tv : ThrownVal)
    (hdone : (finishTest rl test inv step).1 = .done r)
    (hfail : r.status = .fail) (herr : r.error = some tv) :
    (tvIsAE tv = false →
      r.assertions = inv.recorded ++
        [{ className := some test.className, methodName := some test.methodName,
           file := test.file, line := if rl tv = 1 then test.lines.start else rl tv,
           operator := "throws", text := "(uncaught)", message := tvMessageOpt tv,
           error := some tv }])
    ∧ (tvIsAE tv = true → r.assertions = inv.recorded) := by
  unfold finishTest at hdone
  cases step with
  | thrown e =>
    dsimp only at hdone
    cases hdone
  | ret errF =>
    dsimp only at hdone
    by_cases htv : tvTruthy errF = true
    · rw [dif_pos htv] at hdone
      cases errF with
      | none => simp [tvTruthy] at htv
      | some tv0 =>
        dsimp only at hdone
        injection hdone with h5
        subst h5
        dsimp only [initResult] at herr ⊢
        injection herr with h6
        subst h6
        constructor <;> intro hae <;> simp [hae]
    · rw [dif_neg htv] at hdone
      injection hdone with h5
      subst h5
      dsimp only [initResult] at hfail
      cases hfail

/-- C9: whenever `executeTest` returns a `fail` result whose error is not a
structured `AssertionError`, the result's assertion list is the recorded
assertions plus exactly one synthetic `Assertion` with operator `throws`
and text `(uncaught)`, whose line is the stack-derived position unless that
position resolves to line 1, in which case it is the test's declared start
line; a `fail` carrying an `AssertionError` gets no extra assertion. -/
theorem uncaught_assertion (rl : ThrownVal → Nat) (test : TestConfig) (inv : Invocation)
    (r : TestResult) (tv : ThrownVal)
    (hdone : (executeTest rl test inv).1 = .done r)
    (hfail : r.status = .fail) (herr : r.error = some tv) :
    (tvIsAE tv = false →
      r.assertions = inv.recorded ++
        [{ className := some test.className, methodName := some test.methodName,
           file := test.file, line := if rl tv = 1 then test.lines.start else rl tv,
           operator := "throws", text := "(uncaught)", message := tvMessageOpt tv,
           error := some tv }])
    ∧ (tvIsAE tv = true → r.assertions = inv.recorded) := by
  unfold executeTest at hdone
  by_cases hs : test.skip = true
  · rw [if_pos hs] at hdone
    dsimp only at hdone
    injection hdone with h5
    subst h5
    dsimp only [initResult] at hfail
    cases hfail
  · rw [if_neg hs] at hdone
    dsimp only at hdone
    exact finishTest_fail_assertions rl test inv _ r tv hdone hfail herr

/-- C9 witness: the theorem at the concrete failing test whose stack oracle
resolves to line 1, exercising the fallback to declared start line 10. -/
theorem uncaught_assertion_witness :
    demoFailResult.assertions = demoInvBoom.recorded ++
      [{ className := some demoTest.className, methodName := some demoTest.methodName,
         file := demoTest.file,
         line := if demoReadLineOne (.err (mkError "boom")) = 1 then demoTest.lines.start
                 else demoReadLineOne (.err (mkError "boom")),
         operator := "throws", text := "(uncaught)",
         message := tvMessageOpt (.err (mkError "boom")),
         error := some (.err (mkError "boom")) }] :=
  (uncaught_assertion demoReadLineOne demoTest demoInvBoom demoFailResult
    (.err (mkError "boom")) (by decide) (by decide) (by decide)).1 (by decide)

/-- C8 as amended: for a non-skipped test whose `shouldThrow` is a
non-empty substring and whose method throws an `Error`, the test succeeds
iff the thrown message contains the substring; otherwise it fails with the
diagnostic naming the expected substring and the actual message. (The
empty substring is excluded: it is falsy in JavaScript, so the guard skips
validation — see the counterexample.) -/
theorem substring_validation (rl : ThrownVal → Nat) (test : TestConfig) (inv : Invocation)
    (s : String) (e : ErrorV)
    (hskip : test.skip = false) (hst : test.shouldThrow = some (.substring s)) (hs : s ≠ "")
    (hout : inv.outcome = .threw (.err e)) :
    (jsIncludes e.message s = true →
      ∃ r, (executeTest rl test inv).1 = .done r ∧ r.status = .success ∧ r.error = none)
    ∧ (jsIncludes e.message s = false →
      ∃ r, (executeTest rl test inv).1 = .done r ∧ r.status = .fail
        ∧ r.error = some (.err (mkError ("Expected error containing text " ++ sq ++ s ++ sq
            ++ ", but got " ++ (sq ++ e.message ++ sq))))) := by
  have hsk : ¬(test.skip = true) := by simp [hskip]
  have hstt : shouldThrowTruthy (some (.substring s)) = true := by
    simp [shouldThrowTruthy, hs]
  constructor <;> intro hinc
  · unfold executeTest
    rw [if_neg hsk, hout]
    dsimp only
    rw [hst, hstt]
    simp only [eq_self_iff_true, if_true, Option.getD_some]
    rw [show checkError (.substring s) (some (.err e)) = .ret none from by
      unfold checkError
      dsimp only
      rw [if_neg (by simp [tvTruthy, tvMessage, hinc])]]
    unfold finishTest
    dsimp only
    rw [dif_neg (by simp [tvTruthy])]
    exact ⟨_, rfl, rfl, rfl⟩
  · unfold executeTest
    rw [if_neg hsk, hout]
    dsimp only
    rw [hst, hstt]
    simp only [eq_self_iff_true, if_true, Option.getD_some]
    rw [show checkError (.substring s) (some (.err e))
        = .ret (some (.err (mkError ("Expected error containing text " ++ sq ++ s ++ sq
            ++ ", but got " ++ (sq ++ e.message ++ sq))))) from by
      unfold checkError
      dsimp only
      rw [if_pos (by simp [tvTruthy, tvMessage, hinc])]
      dsimp only [tvActual]]
    unfold finishTest
    dsimp only
    rw [dif_pos (by simp [tvTruthy])]
    exact ⟨_, rfl, rfl, rfl⟩

/-- C8 witness: the amended theorem at the concrete `substring "oo"` test
whose method throws `Error('boom')` — the message contains the substring,
so the test succeeds. -/
theorem substring_validation_witness :
    statusOf (executeTest demoReadLine demoTestSub demoInvBoom).1 = some .success := by
  obtain ⟨r, h1, h2, h3⟩ :=
    (substring_validation demoReadLine demoTestSub demoInvBoom "oo" (mkError "boom")
      rfl rfl (by decide) rfl).1 (by decide)
  rw [h1, statusOf, h2]


/-- C6 witness: the amended exit-code theorem at a concrete clean
aggregate. -/
theorem single_file_exit_witness :
    singleFileExit demoFileA = 0
    ∧ (singleFileExit demoFileA = specExitCode demoFileA ↔ demoFileA.failed = 0) :=
  single_file_exit_always_zero demoFileA

end Travetto
